import Mathlib

/-!
Shallow embedding of the portfolio-manager backend's transaction engine,
price oracle, revaluation pass, market-data sync loop and websocket
broadcaster, translated from:

  * backend/src/controllers/assetController.ts
    (getMarketPrice, buyAsset, sellAsset, updateAssetPrices)
  * the portfolio controller (createPortfolio, addCashToPortfolio,
    withdrawCashFromPortfolio)
  * backend/src/services/marketDataService.ts (fetchAllMarketData)
  * backend/src/services/websocketService.ts (emitPortfolioUpdate)

Monetary amounts, prices and quantities are JavaScript numbers in the
source; they are modelled as exact rationals (ℚ).  Database rows become
fields of an explicit state record; the Prisma `$transaction` block
becomes the atomic construction of the successor state; an HTTP error
response becomes an `Except` error.  The external quote provider and the
clock are passed in as explicit parameters.
-/

namespace PortfolioManager

/-- Error taxonomy of the controllers: each constructor corresponds to a
distinct 4xx response body in the source. -/
inductive TradeError where
  | invalidInput
  | notFound
  | priceUnavailable
  | insufficientFunds
  | insufficientHoldings
  deriving DecidableEq, Repr

/-- Transaction types used by the code paths modelled here (the `type`
column of the `Transaction` table). -/
inductive TxnType where
  | BUY
  | SELL
  | DEPOSIT
  | WITHDRAWAL
  deriving DecidableEq, Repr

/-- A row of the `Transaction` table, restricted to the fields the
controllers write and the spec talks about. -/
structure Txn where
  type : TxnType
  quantity : ℚ
  price : ℚ
  totalAmount : ℚ
  deriving DecidableEq, Repr

/-- A row of the `Asset` table (the spec's Holding): `purchasePrice` is
the weighted average purchase price, `currentPrice` the last known
market price. -/
structure Asset where
  id : Nat
  symbol : String
  name : String
  quantity : ℚ
  purchasePrice : ℚ
  currentPrice : ℚ
  deriving DecidableEq, Repr

/-- The mutable columns of a `Portfolio` row that the modelled
operations touch. -/
structure Portfolio where
  cash : ℚ
  totalValue : ℚ
  deriving DecidableEq, Repr

/-- The slice of the database owned by one portfolio: the portfolio row,
its asset rows and its transaction rows (append-ordered), plus the
store's id sequence for newly created assets. -/
structure PState where
  portfolio : Portfolio
  assets : List Asset
  transactions : List Txn
  nextAssetId : Nat
  deriving DecidableEq, Repr

/-- A row of the `MarketData` table; `updatedAt` is a millisecond
timestamp. -/
structure MarketData where
  symbol : String
  name : String
  lastPrice : ℚ
  change : ℚ
  changePercent : ℚ
  updatedAt : Int
  deriving DecidableEq, Repr

/-- Outcome of one call to the external quote provider, as the
controller distinguishes them: `ok` is a response carrying a usable
`Global Quote` price (change and percent already parsed), `malformed` is
a response that arrives but lacks a usable price field, `thrown` is a
request that throws (network/HTTP failure). -/
inductive ProviderResult where
  | ok (price change changePercent : ℚ)
  | malformed
  | thrown
  deriving DecidableEq, Repr

/-- What a successful `getMarketPrice` call yields in the model: the
returned price, the `MarketData` row for the symbol after the call, and
whether the external provider was invoked. -/
structure OracleResult where
  price : ℚ
  cache : Option MarketData
  providerCalled : Bool
  deriving DecidableEq, Repr

/-- The staleness threshold of the cache check: `5 * 60 * 1000` ms. -/
def fiveMinutesMs : Int := 5 * 60 * 1000

/-- `getMarketPrice` (assetController.ts lines 8-60).  If a cached row
exists and is strictly fresher than five minutes, return it without
calling the provider.  Otherwise call the provider: on a usable payload,
upsert the row (update path keeps `symbol`/`name`, create path sets
`name := symbol`) with `updatedAt := now` and return the fresh price; on
a malformed payload fall back to the stale row if one exists, else
throw; a thrown provider error reaches the surrounding catch, which
rethrows it regardless of any cached row. -/
def getMarketPrice (symbol : String) (cached : Option MarketData) (now : Int)
    (provider : ProviderResult) : Except Unit OracleResult :=
  match cached with
  | some md =>
    if now - md.updatedAt < fiveMinutesMs then
      .ok ⟨md.lastPrice, some md, false⟩
    else
      match provider with
      | .ok p c cp =>
          let upserted : MarketData :=
            { md with lastPrice := p, change := c, changePercent := cp, updatedAt := now }
          .ok ⟨p, some upserted, true⟩
      | .malformed => .ok ⟨md.lastPrice, some md, true⟩
      | .thrown => .error ()
  | none =>
    match provider with
    | .ok p c cp => .ok ⟨p, some ⟨symbol, symbol, p, c, cp, now⟩, true⟩
    | .malformed => .error ()
    | .thrown => .error ()

/-- Price resolution shared by buy and sell (`let currentPrice = price;
if (!currentPrice) { currentPrice = await getMarketPrice(...) }`): a
request price of `none` (absent) or `some 0` (JavaScript-falsy) is
replaced by the oracle's answer; any other supplied price is used as
is. -/
def resolveTradePrice (price : Option ℚ) (oracle : Except Unit ℚ) : Except Unit ℚ :=
  if price.getD 0 = 0 then oracle else .ok (price.getD 0)

/-- The committed part of `buyAsset` (assetController.ts lines 99-170),
after authentication, portfolio lookup and price resolution: check
funds, merge into an existing asset for the symbol (weighted average)
or create a new one, decrement cash by `totalCost`, append one BUY
transaction.  Returns the successor state and the asset row the
response carries. -/
def buyAssetCore (s : PState) (symbol name : String) (quantity currentPrice : ℚ) :
    Except TradeError (PState × Asset) :=
  let totalCost := currentPrice * quantity
  if s.portfolio.cash < totalCost then .error .insufficientFunds
  else
    match s.assets.find? (fun a => a.symbol == symbol) with
    | some existing =>
      let newTotalCost := existing.purchasePrice * existing.quantity + totalCost
      let newTotalQuantity := existing.quantity + quantity
      let newAveragePrice := newTotalCost / newTotalQuantity
      let updated : Asset :=
        { existing with quantity := newTotalQuantity,
                        purchasePrice := newAveragePrice,
                        currentPrice := currentPrice }
      .ok ({ s with
              assets := s.assets.map (fun a => if a.id == existing.id then updated else a),
              portfolio := { s.portfolio with cash := s.portfolio.cash - totalCost },
              transactions := s.transactions ++ [⟨.BUY, quantity, currentPrice, totalCost⟩] },
            updated)
    | none =>
      let newAsset : Asset :=
        ⟨s.nextAssetId, symbol, (if name = "" then symbol else name),
          quantity, currentPrice, currentPrice⟩
      .ok ({ s with
              assets := s.assets ++ [newAsset],
              nextAssetId := s.nextAssetId + 1,
              portfolio := { s.portfolio with cash := s.portfolio.cash - totalCost },
              transactions := s.transactions ++ [⟨.BUY, quantity, currentPrice, totalCost⟩] },
            newAsset)

/-- `buyAsset` (assetController.ts lines 63-177) for an authenticated
owner of the portfolio: validate the input (`!symbol || !type ||
!quantity || quantity <= 0`), resolve the price (a failure of the
oracle is answered with the could-not-retrieve-market-price error),
then run the committed part. -/
def buyAsset (s : PState) (symbol name : String) (quantity : ℚ) (price : Option ℚ)
    (oracle : Except Unit ℚ) : Except TradeError (PState × Asset) :=
  if symbol = "" ∨ quantity ≤ 0 then .error .invalidInput
  else if price.getD 0 = 0 then
    match oracle with
    | .error _ => .error .priceUnavailable
    | .ok currentPrice => buyAssetCore s symbol name quantity currentPrice
  else buyAssetCore s symbol name quantity (price.getD 0)

/-- The `$transaction` block of `sellAsset` (assetController.ts lines
236-279): delete the asset row on a full sell (the response carries the
old row with quantity 0) or decrement its quantity and set its
`currentPrice`, increment portfolio cash by `totalAmount`, append one
SELL transaction. -/
def sellAssetCommit (s : PState) (assetId : Nat) (asset : Asset)
    (quantity currentPrice : ℚ) : PState × Asset :=
  let totalAmount := currentPrice * quantity
  if asset.quantity = quantity then
    ({ s with
        assets := s.assets.filter (fun a => ¬ a.id == assetId),
        portfolio := { s.portfolio with cash := s.portfolio.cash + totalAmount },
        transactions := s.transactions ++ [⟨.SELL, quantity, currentPrice, totalAmount⟩] },
      { asset with quantity := 0 })
  else
    let updated : Asset :=
      { asset with quantity := asset.quantity - quantity, currentPrice := currentPrice }
    ({ s with
        assets := s.assets.map (fun a => if a.id == assetId then updated else a),
        portfolio := { s.portfolio with cash := s.portfolio.cash + totalAmount },
        transactions := s.transactions ++ [⟨.SELL, quantity, currentPrice, totalAmount⟩] },
      updated)

/-- `sellAsset` (assetController.ts lines 180-286) for an authenticated
owner: validate the quantity, look the asset row up by id, reject when
the held quantity is smaller than the requested one, resolve the price
(oracle consulted only for a falsy request price), then run the
`$transaction` block `sellAssetCommit`. -/
def sellAsset (s : PState) (assetId : Nat) (quantity : ℚ) (price : Option ℚ)
    (oracle : Except Unit ℚ) : Except TradeError (PState × Asset) :=
  if quantity ≤ 0 then .error .invalidInput
  else
    match s.assets.find? (fun a => a.id == assetId) with
    | none => .error .notFound
    | some asset =>
      if asset.quantity < quantity then .error .insufficientHoldings
      else if price.getD 0 = 0 then
        match oracle with
        | .error _ => .error .priceUnavailable
        | .ok currentPrice => .ok (sellAssetCommit s assetId asset quantity currentPrice)
      else .ok (sellAssetCommit s assetId asset quantity (price.getD 0))

/-- One buy order with an explicitly supplied (resolved) price. -/
structure BuyOrder where
  symbol : String
  name : String
  quantity : ℚ
  price : ℚ
  deriving DecidableEq, Repr

/-- A sequence of buys against one portfolio, each committed through
`buyAssetCore`; the whole sequence succeeds only if every buy is
accepted. -/
def runBuys (s : PState) (orders : List BuyOrder) : Except TradeError PState :=
  match orders with
  | [] => .ok s
  | o :: rest =>
    match buyAssetCore s o.symbol o.name o.quantity o.price with
    | .error e => .error e
    | .ok (s2, _) => runBuys s2 rest

/-- `createPortfolio` (portfolio controller lines 65-106): the name is
required; the cash column is set to `cash || 0` with no sign check, the
total value likewise; a DEPOSIT transaction is recorded only when the
requested cash is strictly positive. -/
def createPortfolio (name : String) (cash : Option ℚ) :
    Except TradeError (Portfolio × List Txn) :=
  if name = "" then .error .invalidInput
  else
    let c := cash.getD 0
    .ok (⟨c, c⟩, if 0 < c then [⟨.DEPOSIT, 1, c, c⟩] else [])

/-- `addCashToPortfolio` (portfolio controller lines 180-231): a
non-positive amount is rejected; otherwise cash and total value are
incremented and a DEPOSIT transaction recorded. -/
def addCashToPortfolio (p : Portfolio) (amount : ℚ) :
    Except TradeError (Portfolio × Txn) :=
  if amount ≤ 0 then .error .invalidInput
  else .ok (⟨p.cash + amount, p.totalValue + amount⟩, ⟨.DEPOSIT, 1, amount, amount⟩)

/-- `withdrawCashFromPortfolio` (portfolio controller lines 234-289): a
non-positive amount is rejected, then an amount exceeding the cash
balance; otherwise cash and total value are decremented and a
WITHDRAWAL transaction recorded. -/
def withdrawCashFromPortfolio (p : Portfolio) (amount : ℚ) :
    Except TradeError (Portfolio × Txn) :=
  if amount ≤ 0 then .error .invalidInput
  else if p.cash < amount then .error .insufficientFunds
  else .ok (⟨p.cash - amount, p.totalValue - amount⟩, ⟨.WITHDRAWAL, 1, amount, amount⟩)

/-- Revaluation of one asset (the body of the `map` in
`updateAssetPrices`, assetController.ts lines 313-327): on a successful
oracle lookup the row's `currentPrice` is updated; on a per-symbol
failure the row is returned unchanged. -/
def updateOneAsset (oracle : String → Option ℚ) (a : Asset) : Asset :=
  match oracle a.symbol with
  | some p => { a with currentPrice := p }
  | none => a

/-- `updateAssetPrices` (assetController.ts lines 289-350): revalue
every asset of the portfolio (per-symbol failures keep the old price),
then persist `totalValue := Σ currentPrice·quantity + cash`. -/
def updateAssetPrices (s : PState) (oracle : String → Option ℚ) : PState :=
  let updatedAssets := s.assets.map (updateOneAsset oracle)
  let assetValue := (updatedAssets.map (fun a => a.currentPrice * a.quantity)).sum
  { s with assets := updatedAssets,
           portfolio := { s.portfolio with totalValue := assetValue + s.portfolio.cash } }

/-- A market quote as returned by one successful per-symbol fetch of the
sync loop. -/
structure Quote where
  symbol : String
  lastPrice : ℚ
  change : ℚ
  changePercent : ℚ
  deriving DecidableEq, Repr

/-- `fetchAllMarketData` (marketDataService.ts lines 57-79): iterate the
tracked symbols sequentially; a per-symbol failure is logged and
skipped, every remaining symbol is still fetched; successful results
are collected in order. -/
def fetchAllMarketData (symbols : List String) (provider : String → Option Quote) :
    List Quote :=
  match symbols with
  | [] => []
  | sym :: rest =>
    match provider sym with
    | some q => q :: fetchAllMarketData rest provider
    | none => fetchAllMarketData rest provider

/-- One socket emission: the room it goes to and the event name. -/
structure Emit where
  room : String
  event : String
  deriving DecidableEq, Repr

/-- The identifying columns of a portfolio row that
`emitPortfolioUpdate` reads. -/
structure PortfolioRec where
  id : Nat
  userId : Nat
  deriving DecidableEq, Repr

/-- Socket emissions performed by the `buyAsset` handler
(assetController.ts lines 63-177): its body contains no call to the
websocket service and no `io.emit`, so a committed buy emits nothing. -/
def buyAssetEmits : List Emit := []

/-- Socket emissions performed by the `sellAsset` handler
(assetController.ts lines 180-286): its body contains no call to the
websocket service and no `io.emit`, so a committed sell emits
nothing. -/
def sellAssetEmits : List Emit := []

/-- `emitPortfolioUpdate` (websocketService.ts lines 100-117): reload
the portfolio with its assets; if found, emit `portfolio:update` to the
portfolio's room and to the owning user's room; if not found (or on
error), emit nothing. -/
def emitPortfolioUpdate (found : Option PortfolioRec) : List Emit :=
  match found with
  | some p =>
      [⟨"portfolio:" ++ toString p.id, "portfolio:update"⟩,
       ⟨"user:" ++ toString p.userId, "portfolio:update"⟩]
  | none => []


theorem buyAssetCore_cash {s : PState} {sym nm : String} {q p : ℚ} {s' : PState} {a : Asset}
    (h : buyAssetCore s sym nm q p = .ok (s', a)) :
    s'.portfolio.cash = s.portfolio.cash - p * q := by
  simp only [buyAssetCore] at h
  split at h
  · exact absurd h (by simp)
  · split at h
    · simp only [Except.ok.injEq, Prod.mk.injEq] at h
      obtain ⟨h1, -⟩ := h
      subst h1
      rfl
    · simp only [Except.ok.injEq, Prod.mk.injEq] at h
      obtain ⟨h1, -⟩ := h
      subst h1
      rfl

theorem runBuys_cash : ∀ (orders : List BuyOrder) (s s' : PState),
    runBuys s orders = .ok s' →
    s'.portfolio.cash =
      s.portfolio.cash - (orders.map (fun o => o.price * o.quantity)).sum := by
  intro orders
  induction orders with
  | nil =>
    intro s s' h
    simp only [runBuys, Except.ok.injEq] at h
    subst h
    simp
  | cons o rest ih =>
    intro s s' h
    unfold runBuys at h
    split at h
    · exact absurd h (by simp)
    · next s2 a heq =>
      have h1 := buyAssetCore_cash heq
      have h2 := ih _ _ h
      rw [h2, h1, List.map_cons, List.sum_cons]
      ring

/-- C1 -/
theorem buy_sequence_cash_and_first_buy :
    (∀ (orders : List BuyOrder) (s s' : PState),
        runBuys s orders = .ok s' →
        s'.portfolio.cash =
          s.portfolio.cash - (orders.map (fun o => o.price * o.quantity)).sum) ∧
    buyAsset ⟨⟨200, 200⟩, [], [], 0⟩ "XYZ" "" 5 (some 20) (.error ()) =
      .ok (⟨⟨100, 200⟩, [⟨0, "XYZ", "XYZ", 5, 20, 20⟩], [⟨.BUY, 5, 20, 100⟩], 1⟩,
            ⟨0, "XYZ", "XYZ", 5, 20, 20⟩) :=
  ⟨runBuys_cash, by (norm_num [buyAsset, buyAssetCore]; simp)⟩

/-- C1 witness -/
theorem buy_sequence_cash_and_first_buy_witness :
    (⟨⟨9000, 10000⟩, [⟨0, "A", "A", 10, 100, 100⟩], [⟨.BUY, 10, 100, 1000⟩], 1⟩
        : PState).portfolio.cash =
      (⟨⟨10000, 10000⟩, [], [], 0⟩ : PState).portfolio.cash -
        (([⟨"A", "", 10, 100⟩] : List BuyOrder).map (fun o => o.price * o.quantity)).sum :=
  buy_sequence_cash_and_first_buy.1 [⟨"A", "", 10, 100⟩] ⟨⟨10000, 10000⟩, [], [], 0⟩
    ⟨⟨9000, 10000⟩, [⟨0, "A", "A", 10, 100, 100⟩], [⟨.BUY, 10, 100, 1000⟩], 1⟩
    (by norm_num [runBuys, buyAssetCore])

/-- C2 -/
theorem insufficient_funds_and_holdings_rejected :
    (∀ (s : PState) (sym nm : String) (q p : ℚ) (oracle : Except Unit ℚ),
        sym ≠ "" → 0 < q → p ≠ 0 → s.portfolio.cash < p * q →
        buyAsset s sym nm q (some p) oracle = .error .insufficientFunds) ∧
    (∀ (s : PState) (assetId : Nat) (q : ℚ) (price : Option ℚ) (oracle : Except Unit ℚ)
        (a : Asset),
        0 < q → s.assets.find? (fun b => b.id == assetId) = some a → a.quantity < q →
        sellAsset s assetId q price oracle = .error .insufficientHoldings) := by
  constructor
  · intro s sym nm q p oracle hsym hq hp hcash
    have h1 : ¬ (sym = "" ∨ q ≤ 0) := by push_neg; exact ⟨hsym, hq⟩
    unfold buyAsset
    rw [if_neg h1]
    simp only [Option.getD_some]
    rw [if_neg hp]
    simp only [buyAssetCore]
    rw [if_pos hcash]
  · intro s assetId q price oracle a hq hfind hlt
    simp only [sellAsset, hfind]
    rw [if_neg (not_le.mpr hq), if_pos hlt]

/-- C2 witness -/
theorem insufficient_funds_and_holdings_rejected_witness :
    buyAsset ⟨⟨100, 100⟩, [], [], 0⟩ "XYZ" "" 1 (some 300) (.error ()) =
      .error .insufficientFunds :=
  insufficient_funds_and_holdings_rejected.1 ⟨⟨100, 100⟩, [], [], 0⟩ "XYZ" "" 1 300 (.error ())
    (by decide) (by norm_num) (by norm_num) (by norm_num)

/-- C4 -/
theorem buy_merge_weighted_average :
    (∀ (s : PState) (sym nm : String) (q p : ℚ) (ex : Asset),
        s.assets.find? (fun a => a.symbol == sym) = some ex →
        p * q ≤ s.portfolio.cash →
        ∃ s' rep, buyAssetCore s sym nm q p = .ok (s', rep) ∧
          rep.quantity = ex.quantity + q ∧
          rep.purchasePrice = (ex.purchasePrice * ex.quantity + p * q) / (ex.quantity + q) ∧
          rep.currentPrice = p) ∧
    runBuys ⟨⟨10000, 10000⟩, [], [], 0⟩ [⟨"A", "", 10, 100⟩, ⟨"A", "", 10, 200⟩] =
      .ok ⟨⟨7000, 10000⟩, [⟨0, "A", "A", 20, 150, 200⟩],
            [⟨.BUY, 10, 100, 1000⟩, ⟨.BUY, 10, 200, 2000⟩], 1⟩ := by
  constructor
  · intro s sym nm q p ex hfind hcash
    have hres : buyAssetCore s sym nm q p =
        .ok ({ s with
                assets := s.assets.map (fun a => if a.id == ex.id then
                  { ex with quantity := ex.quantity + q,
                            purchasePrice :=
                              (ex.purchasePrice * ex.quantity + p * q) / (ex.quantity + q),
                            currentPrice := p } else a),
                portfolio := { s.portfolio with cash := s.portfolio.cash - p * q },
                transactions := s.transactions ++ [⟨.BUY, q, p, p * q⟩] },
              { ex with quantity := ex.quantity + q,
                        purchasePrice :=
                          (ex.purchasePrice * ex.quantity + p * q) / (ex.quantity + q),
                        currentPrice := p }) := by
      simp only [buyAssetCore, hfind]
      rw [if_neg (not_lt.mpr hcash)]
    exact ⟨_, _, hres, rfl, rfl, rfl⟩
  · norm_num [runBuys, buyAssetCore]

/-- C4 witness -/
theorem buy_merge_weighted_average_witness :
    ∃ s' rep,
      buyAssetCore ⟨⟨2000, 2000⟩, [⟨0, "A", "A", 10, 100, 100⟩], [], 1⟩ "A" "" 10 200 =
        .ok (s', rep) ∧
      rep.quantity = (10 : ℚ) + 10 ∧
      rep.purchasePrice = ((100 : ℚ) * 10 + 200 * 10) / (10 + 10) ∧
      rep.currentPrice = (200 : ℚ) :=
  buy_merge_weighted_average.1 ⟨⟨2000, 2000⟩, [⟨0, "A", "A", 10, 100, 100⟩], [], 1⟩
    "A" "" 10 200 ⟨0, "A", "A", 10, 100, 100⟩ (by simp) (by norm_num)



theorem sellAssetCommit_cash (s : PState) (assetId : Nat) (a : Asset) (q cp : ℚ) :
    (sellAssetCommit s assetId a q cp).1.portfolio.cash = s.portfolio.cash + cp * q := by
  simp only [sellAssetCommit]
  split <;> rfl

/-- C3 -/
theorem sell_effects_and_scenario :
    (∀ (s : PState) (assetId : Nat) (q p : ℚ) (oracle : Except Unit ℚ) (a : Asset),
        0 < q → p ≠ 0 →
        s.assets.find? (fun b => b.id == assetId) = some a →
        q ≤ a.quantity →
        ∃ s' rep, sellAsset s assetId q (some p) oracle = .ok (s', rep) ∧
          s'.portfolio.cash = s.portfolio.cash + p * q ∧
          s'.transactions = s.transactions ++ [⟨.SELL, q, p, p * q⟩] ∧
          (q = a.quantity → rep.quantity = 0 ∧ ∀ b ∈ s'.assets, b.id ≠ assetId) ∧
          (q < a.quantity → rep.quantity = a.quantity - q ∧ rep.currentPrice = p ∧
            { a with quantity := a.quantity - q, currentPrice := p } ∈ s'.assets)) ∧
    sellAsset ⟨⟨100, 200⟩, [⟨0, "XYZ", "XYZ", 5, 20, 20⟩], [⟨.BUY, 5, 20, 100⟩], 1⟩
        0 5 (some 25) (.error ()) =
      .ok (⟨⟨225, 200⟩, [], [⟨.BUY, 5, 20, 100⟩, ⟨.SELL, 5, 25, 125⟩], 1⟩,
            ⟨0, "XYZ", "XYZ", 0, 20, 20⟩) := by
  constructor
  · intro s assetId q p oracle a hq hp hfind hle
    have hsell : sellAsset s assetId q (some p) oracle =
        .ok (sellAssetCommit s assetId a q p) := by
      simp only [sellAsset, hfind, Option.getD_some]
      rw [if_neg (not_le.mpr hq), if_neg (not_lt.mpr hle), if_neg hp]
    by_cases heq : a.quantity = q
    · have hcommit : sellAssetCommit s assetId a q p =
          ({ s with
              assets := s.assets.filter (fun b => ¬ b.id == assetId),
              portfolio := { s.portfolio with cash := s.portfolio.cash + p * q },
              transactions := s.transactions ++ [⟨.SELL, q, p, p * q⟩] },
            { a with quantity := 0 }) := by
        simp only [sellAssetCommit]
        rw [if_pos heq]
      refine ⟨_, _, hsell.trans (congrArg Except.ok hcommit), rfl, rfl, ?_, ?_⟩
      · intro _
        refine ⟨rfl, ?_⟩
        intro b hb
        have h2 := (List.mem_filter.mp hb).2
        simp only [decide_not, Bool.not_eq_true', decide_eq_false_iff_not] at h2
        intro hcontra
        exact h2 (by simp [hcontra])
      · intro hlt
        exact absurd (heq ▸ hlt) (lt_irrefl q)
    · have hcommit : sellAssetCommit s assetId a q p =
          ({ s with
              assets := s.assets.map (fun b => if b.id == assetId then
                { a with quantity := a.quantity - q, currentPrice := p } else b),
              portfolio := { s.portfolio with cash := s.portfolio.cash + p * q },
              transactions := s.transactions ++ [⟨.SELL, q, p, p * q⟩] },
            { a with quantity := a.quantity - q, currentPrice := p }) := by
        simp only [sellAssetCommit]
        rw [if_neg heq]
      refine ⟨_, _, hsell.trans (congrArg Except.ok hcommit), rfl, rfl, ?_, ?_⟩
      · intro h
        exact absurd h.symm heq
      · intro _
        refine ⟨rfl, rfl, ?_⟩
        have hmem : a ∈ s.assets := List.mem_of_find?_eq_some hfind
        have hpred := List.find?_some hfind
        exact List.mem_map.mpr ⟨a, hmem, by simp only [hpred, if_true]⟩
  · norm_num [sellAsset, sellAssetCommit]

/-- C3 witness -/
theorem sell_effects_and_scenario_witness :
    ∃ s' rep,
      sellAsset ⟨⟨0, 0⟩, [⟨3, "B", "B", 10, 4, 4⟩], [], 4⟩ 3 4 (some 7) (.error ()) =
        .ok (s', rep) ∧
      s'.portfolio.cash = (0 : ℚ) + 7 * 4 ∧
      s'.transactions = ([] : List Txn) ++ [⟨.SELL, 4, 7, 7 * 4⟩] ∧
      ((4 : ℚ) = 10 → rep.quantity = 0 ∧ ∀ b ∈ s'.assets, b.id ≠ 3) ∧
      ((4 : ℚ) < 10 → rep.quantity = (10 : ℚ) - 4 ∧ rep.currentPrice = 7 ∧
        ({ id := 3, symbol := "B", name := "B", quantity := (10 : ℚ) - 4,
           purchasePrice := 4, currentPrice := 7 } : Asset) ∈ s'.assets) :=
  sell_effects_and_scenario.1 ⟨⟨0, 0⟩, [⟨3, "B", "B", 10, 4, 4⟩], [], 4⟩ 3 4 7 (.error ())
    ⟨3, "B", "B", 10, 4, 4⟩ (by norm_num) (by norm_num) (by simp) (by norm_num)

/-- C5 counterexample -/
theorem create_portfolio_negative_cash :
    createPortfolio "p" (some (-100)) = .ok (⟨-100, -100⟩, []) ∧ ((-100 : ℚ) < 0) := by
  constructor
  · (norm_num [createPortfolio]; simp)
  · norm_num

/-- C5 amended -/
theorem cash_nonneg_preserved :
    (∀ (nm : String) (c : ℚ) (p : Portfolio) (txns : List Txn),
        0 ≤ c → createPortfolio nm (some c) = .ok (p, txns) → 0 ≤ p.cash) ∧
    (∀ (p p' : Portfolio) (amount : ℚ) (t : Txn),
        0 ≤ p.cash → addCashToPortfolio p amount = .ok (p', t) → 0 ≤ p'.cash) ∧
    (∀ (p p' : Portfolio) (amount : ℚ) (t : Txn),
        withdrawCashFromPortfolio p amount = .ok (p', t) → 0 ≤ p'.cash) ∧
    (∀ (s : PState) (sym nm : String) (q cp : ℚ) (s' : PState) (a : Asset),
        buyAssetCore s sym nm q cp = .ok (s', a) → 0 ≤ s'.portfolio.cash) ∧
    (∀ (s : PState) (assetId : Nat) (q : ℚ) (price : Option ℚ) (oracle : Except Unit ℚ)
        (s' : PState) (rep : Asset),
        0 ≤ s.portfolio.cash →
        (∀ cp, resolveTradePrice price oracle = .ok cp → 0 ≤ cp) →
        sellAsset s assetId q price oracle = .ok (s', rep) → 0 ≤ s'.portfolio.cash) := by
  refine ⟨?_, ?_, ?_, ?_, ?_⟩
  · intro nm c p txns hc h
    simp only [createPortfolio] at h
    split at h
    · exact absurd h (by simp)
    · simp only [Option.getD_some, Except.ok.injEq, Prod.mk.injEq] at h
      obtain ⟨h1, -⟩ := h
      subst h1
      exact hc
  · intro p p' amount t hc h
    simp only [addCashToPortfolio] at h
    split at h
    · exact absurd h (by simp)
    · next hamt =>
      simp only [Except.ok.injEq, Prod.mk.injEq] at h
      obtain ⟨h1, -⟩ := h
      subst h1
      have : (0 : ℚ) < amount := lt_of_not_le hamt
      show 0 ≤ p.cash + amount
      linarith
  · intro p p' amount t h
    simp only [withdrawCashFromPortfolio] at h
    split at h
    · exact absurd h (by simp)
    · split at h
      · exact absurd h (by simp)
      · next hlt =>
        simp only [Except.ok.injEq, Prod.mk.injEq] at h
        obtain ⟨h1, -⟩ := h
        subst h1
        have : amount ≤ p.cash := le_of_not_lt hlt
        show 0 ≤ p.cash - amount
        linarith
  · intro s sym nm q cp s' a h
    simp only [buyAssetCore] at h
    split at h
    · exact absurd h (by simp)
    · next hguard =>
      have hle : cp * q ≤ s.portfolio.cash := le_of_not_lt hguard
      split at h
      · simp only [Except.ok.injEq, Prod.mk.injEq] at h
        obtain ⟨h1, -⟩ := h
        subst h1
        show 0 ≤ s.portfolio.cash - cp * q
        linarith
      · simp only [Except.ok.injEq, Prod.mk.injEq] at h
        obtain ⟨h1, -⟩ := h
        subst h1
        show 0 ≤ s.portfolio.cash - cp * q
        linarith
  · intro s assetId q price oracle s' rep hcash hpv h
    simp only [sellAsset] at h
    split at h
    · exact absurd h (by simp)
    · next hqpos =>
      have hq : (0 : ℚ) < q := lt_of_not_le hqpos
      split at h
      · exact absurd h (by simp)
      · next asset hfind =>
        split at h
        · exact absurd h (by simp)
        · split at h
          · next hfalsy =>
            split at h
            · exact absurd h (by simp)
            · next cp =>
              have hcp : 0 ≤ cp := hpv cp (by rw [resolveTradePrice, if_pos hfalsy])
              have hamt : 0 ≤ cp * q := mul_nonneg hcp (le_of_lt hq)
              simp only [Except.ok.injEq] at h
              have h1 := congrArg Prod.fst h
              simp only at h1
              rw [← h1, sellAssetCommit_cash]
              linarith
          · next hfalsy =>
            have hcp : 0 ≤ price.getD 0 :=
              hpv (price.getD 0) (by rw [resolveTradePrice, if_neg hfalsy])
            have hamt : 0 ≤ price.getD 0 * q := mul_nonneg hcp (le_of_lt hq)
            simp only [Except.ok.injEq] at h
            have h1 := congrArg Prod.fst h
            simp only at h1
            rw [← h1, sellAssetCommit_cash]
            linarith

/-- C5 witness -/
theorem cash_nonneg_preserved_witness :
    withdrawCashFromPortfolio ⟨100, 100⟩ 30 = .ok (⟨70, 70⟩, ⟨.WITHDRAWAL, 1, 30, 30⟩) ∧
    0 ≤ ((⟨70, 70⟩ : Portfolio)).cash :=
  ⟨by norm_num [withdrawCashFromPortfolio],
    cash_nonneg_preserved.2.2.1 ⟨100, 100⟩ ⟨70, 70⟩ 30 ⟨.WITHDRAWAL, 1, 30, 30⟩
      (by norm_num [withdrawCashFromPortfolio])⟩


/-- C6 -/
theorem price_cache_behavior :
    (∀ (sym : String) (md : MarketData) (now : Int) (pv : ProviderResult),
        now - md.updatedAt < fiveMinutesMs →
        getMarketPrice sym (some md) now pv = .ok ⟨md.lastPrice, some md, false⟩) ∧
    (∀ (sym : String) (md : MarketData) (now : Int) (p c cp : ℚ),
        fiveMinutesMs ≤ now - md.updatedAt →
        getMarketPrice sym (some md) now (.ok p c cp) =
          .ok ⟨p, some { md with lastPrice := p, change := c, changePercent := cp, updatedAt := now }, true⟩) ∧
    (∀ (sym : String) (now : Int) (p c cp : ℚ),
        getMarketPrice sym none now (.ok p c cp) =
          .ok ⟨p, some ⟨sym, sym, p, c, cp, now⟩, true⟩) := by
  refine ⟨?_, ?_, ?_⟩
  · intro sym md now pv h
    simp only [getMarketPrice]
    rw [if_pos h]
  · intro sym md now p c cp h
    simp only [getMarketPrice]
    rw [if_neg (not_lt.mpr h)]
  · intro sym now p c cp
    rfl

/-- C6 witness -/
theorem price_cache_behavior_witness :
    ((299999 : Int) - 0 < fiveMinutesMs) ∧
    getMarketPrice "AAPL" (some ⟨"AAPL", "AAPL", 42, 1, 2, 0⟩) 299999 .thrown =
      .ok ⟨42, some ⟨"AAPL", "AAPL", 42, 1, 2, 0⟩, false⟩ :=
  ⟨by decide,
    price_cache_behavior.1 "AAPL" ⟨"AAPL", "AAPL", 42, 1, 2, 0⟩ 299999 .thrown (by decide)⟩

/-- C7 counterexample -/
theorem thrown_provider_no_stale_fallback :
    fiveMinutesMs ≤ (600000 : Int) - 0 ∧
    getMarketPrice "AAPL" (some ⟨"AAPL", "AAPL", 42, 0, 0, 0⟩) 600000 .thrown =
      .error () := by
  constructor
  · decide
  · simp [getMarketPrice, fiveMinutesMs]

/-- C7 amended -/
theorem provider_failure_fallback :
    (∀ (sym : String) (md : MarketData) (now : Int),
        fiveMinutesMs ≤ now - md.updatedAt →
        getMarketPrice sym (some md) now .malformed = .ok ⟨md.lastPrice, some md, true⟩ ∧
        getMarketPrice sym (some md) now .thrown = .error ()) ∧
    (∀ (sym : String) (now : Int),
        getMarketPrice sym none now .malformed = .error () ∧
        getMarketPrice sym none now .thrown = .error ()) := by
  refine ⟨?_, ?_⟩
  · intro sym md now h
    constructor <;> (simp only [getMarketPrice]; rw [if_neg (not_lt.mpr h)])
  · intro sym now
    exact ⟨rfl, rfl⟩

/-- C7 witness -/
theorem provider_failure_fallback_witness :
    fiveMinutesMs ≤ (600000 : Int) - 0 ∧
    getMarketPrice "AAPL" (some ⟨"AAPL", "AAPL", 42, 0, 0, 0⟩) 600000 .malformed =
      .ok ⟨42, some ⟨"AAPL", "AAPL", 42, 0, 0, 0⟩, true⟩ :=
  ⟨by decide,
    (provider_failure_fallback.1 "AAPL" ⟨"AAPL", "AAPL", 42, 0, 0, 0⟩ 600000 (by decide)).1⟩

/-- C8 counterexample -/
theorem committed_buy_emits_nothing :
    buyAsset ⟨⟨200, 200⟩, [], [], 0⟩ "XYZ" "" 5 (some 20) (.error ()) =
      .ok (⟨⟨100, 200⟩, [⟨0, "XYZ", "XYZ", 5, 20, 20⟩], [⟨.BUY, 5, 20, 100⟩], 1⟩,
            ⟨0, "XYZ", "XYZ", 5, 20, 20⟩) ∧
    buyAssetEmits = [] ∧ sellAssetEmits = [] := by
  refine ⟨?_, rfl, rfl⟩
  (norm_num [buyAsset, buyAssetCore]; simp)

/-- C8 amended -/
theorem broadcaster_emissions :
    buyAssetEmits = [] ∧ sellAssetEmits = [] ∧
    emitPortfolioUpdate none = [] ∧
    (∀ p : PortfolioRec, emitPortfolioUpdate (some p) =
      [⟨"portfolio:" ++ toString p.id, "portfolio:update"⟩,
       ⟨"user:" ++ toString p.userId, "portfolio:update"⟩]) :=
  ⟨rfl, rfl, rfl, fun _ => rfl⟩

/-- C9 -/
theorem revaluation_tolerates_partial_failure :
    (∀ (oracle : String → Option ℚ) (a : Asset),
        oracle a.symbol = none → updateOneAsset oracle a = a) ∧
    (∀ (s : PState) (oracle : String → Option ℚ),
        (updateAssetPrices s oracle).assets = s.assets.map (updateOneAsset oracle)) ∧
    (∀ (s : PState) (oracle : String → Option ℚ),
        (updateAssetPrices s oracle).portfolio.totalValue =
          s.portfolio.cash +
            ((updateAssetPrices s oracle).assets.map
              (fun a => a.currentPrice * a.quantity)).sum) ∧
    (∀ (xs ys : List String) (pv : String → Option Quote),
        fetchAllMarketData (xs ++ ys) pv =
          fetchAllMarketData xs pv ++ fetchAllMarketData ys pv) := by
  refine ⟨?_, ?_, ?_, ?_⟩
  · intro oracle a h
    simp only [updateOneAsset, h]
  · intro s oracle
    rfl
  · intro s oracle
    simp only [updateAssetPrices]
    ring
  · intro xs ys pv
    induction xs with
    | nil => rfl
    | cons x rest ih =>
      simp only [List.cons_append, fetchAllMarketData]
      split <;> simp [ih]

/-- C9 witness -/
theorem revaluation_tolerates_partial_failure_witness :
    updateOneAsset (fun _ => none) ⟨0, "A", "A", 1, 2, 3⟩ = ⟨0, "A", "A", 1, 2, 3⟩ :=
  revaluation_tolerates_partial_failure.1 (fun _ => none) ⟨0, "A", "A", 1, 2, 3⟩ rfl

/-- C10 -/
theorem zero_price_uses_oracle :
    (∀ (s : PState) (sym nm : String) (q : ℚ) (oracle : Except Unit ℚ),
        buyAsset s sym nm q (some 0) oracle = buyAsset s sym nm q none oracle) ∧
    (∀ (s : PState) (assetId : Nat) (q : ℚ) (oracle : Except Unit ℚ),
        sellAsset s assetId q (some 0) oracle = sellAsset s assetId q none oracle) ∧
    (∀ (s : PState) (sym nm : String) (q : ℚ),
        sym ≠ "" → 0 < q →
        buyAsset s sym nm q (some 0) (.error ()) = .error .priceUnavailable) ∧
    (∀ (s : PState) (assetId : Nat) (q : ℚ) (a : Asset),
        0 < q → s.assets.find? (fun b => b.id == assetId) = some a → q ≤ a.quantity →
        sellAsset s assetId q (some 0) (.error ()) = .error .priceUnavailable) := by
  refine ⟨?_, ?_, ?_, ?_⟩
  · intro s sym nm q oracle
    rfl
  · intro s assetId q oracle
    rfl
  · intro s sym nm q hsym hq
    have h1 : ¬ (sym = "" ∨ q ≤ 0) := by push_neg; exact ⟨hsym, hq⟩
    simp only [buyAsset]
    rw [if_neg h1]
    simp
  · intro s assetId q a hq hfind hle
    simp only [sellAsset, hfind]
    rw [if_neg (not_le.mpr hq), if_neg (not_lt.mpr hle)]
    simp

/-- C10 witness -/
theorem zero_price_uses_oracle_witness :
    ("XYZ" : String) ≠ "" ∧ (0 : ℚ) < 5 ∧
    buyAsset ⟨⟨200, 200⟩, [], [], 0⟩ "XYZ" "" 5 (some 0) (.error ()) =
      .error .priceUnavailable :=
  ⟨by decide, by norm_num,
    zero_price_uses_oracle.2.2.1 ⟨⟨200, 200⟩, [], [], 0⟩ "XYZ" "" 5 (by decide) (by norm_num)⟩

end PortfolioManager
